import Mathlib

/-!
Shallow embedding of the TodoCli task tracker (src/main.rs).

The program keeps an in-memory `Vec<Task>` inside `TasksManager` and exposes
add / find / edit / remove / print operations plus JSON persistence through
`serde_json`.  The embedding below translates that code:

* `Priority`, `Task`, `TasksManager` mirror the Rust data types.  The
  `add_time : DateTime<Local>` field is modelled by its serialized text
  (serde represents it as an RFC3339-like string); the embedding carries
  that string around, which is all the lookup / edit / persistence code
  ever does with it.
* Mutating methods become state-passing functions returning the
  `Result<String, String>` outcome (`Except String String`) together with
  the new state.
* The file system is a map from file names to parsed JSON documents
  (`FS := String → Option Json`); `Path::exists` is `Option.isSome`,
  `serde_json::to_writer` / `from_reader` are `encodeTasks` /
  `decodeTasks` over a JSON value type.  The byte-level printing and
  reparsing done by the serde_json library itself is below the level of
  this model.
-/

namespace TodoCli

/-- The `Priority` enum from src/main.rs. -/
inductive Priority where
  | Low : Priority
  | Medium : Priority
  | High : Priority
deriving DecidableEq

/-- `Priority::to_string` from src/main.rs. -/
def Priority.toString : Priority → String
  | Priority.Low => "Low"
  | Priority.Medium => "Medium"
  | Priority.High => "High"

/-- The `Task` struct from src/main.rs.  `add_time` is the serialized text of
the `DateTime<Local>` creation timestamp. -/
structure Task where
  name : String
  description : String
  priority : Priority
  add_time : String
deriving DecidableEq

/-- The `TasksManager` struct from src/main.rs: it owns the `Vec<Task>`. -/
structure TasksManager where
  tasks : List Task
deriving DecidableEq

/-- `TasksManager::new`. -/
def TasksManager.new : TasksManager := { tasks := [] }

/-- `Task::print_task` renders `"{} | {} | {}\n\"{}\"\n"` with the name, the
priority label, the formatted timestamp and the description.  The chrono
`format("%d-%m-%Y %H:%M:%S")` call is modelled as an uninterpreted function of
the stored timestamp text. -/
def formatTime (s : String) : String := s

/-- The line `Task::print_task` prints for one task. -/
def Task.render (t : Task) : String :=
  t.name ++ " | " ++ t.priority.toString ++ " | " ++ formatTime t.add_time
    ++ "\n\"" ++ t.description ++ "\"\n"

/-- `TasksManager::print_tasks`: prints every task in order; modelled as the
list of rendered lines. -/
def TasksManager.print_tasks (st : TasksManager) : List String :=
  st.tasks.map Task.render

/-- `TasksManager::add_task`: `self.tasks.push(task)`. -/
def TasksManager.add_task (st : TasksManager) (task : Task) : TasksManager :=
  { tasks := st.tasks ++ [task] }

/-- `Iterator::position`: index of the first element satisfying the
predicate. -/
def position (p : Task → Bool) : List Task → Option Nat
  | [] => none
  | t :: ts => if p t then some 0 else (position p ts).map (· + 1)

/-- `TasksManager::find_task`:
`self.tasks.iter().position(|task| task.name == name)`. -/
def TasksManager.find_task (st : TasksManager) (name : String) : Option Nat :=
  position (fun task => task.name == name) st.tasks

/-- `TasksManager::remove_task` from src/main.rs: find the index, `Vec::remove`
it (which shifts the later elements down), or report that the task does not
exist. -/
def TasksManager.remove_task (st : TasksManager) (name : String) :
    Except String String × TasksManager :=
  match st.find_task name with
  | some index =>
      (Except.ok ("Task \"" ++ name ++ "\" removed successfully"),
       { tasks := st.tasks.eraseIdx index })
  | none =>
      (Except.error ("Task with name \"" ++ name ++ "\" doesn't exist"), st)

/-- `TasksManager::edit_task` from src/main.rs: find the index, `get_mut` the
slot, overwrite `name`, `description` and `priority` in place (the `add_time`
field is not assigned), or report the error of the branch taken. -/
def TasksManager.edit_task (st : TasksManager) (name : String)
    (updated_task : Task) : Except String String × TasksManager :=
  match st.find_task name with
  | some index =>
      match st.tasks[index]? with
      | some task =>
          (Except.ok ("Task \"" ++ name ++ "\" updated successfully"),
           { tasks := st.tasks.set index
              { name := updated_task.name
                description := updated_task.description
                priority := updated_task.priority
                add_time := task.add_time } })
      | none => (Except.error "Error borrowing task", st)
  | none =>
      (Except.error ("Task with name \"" ++ name ++ "\" doesn't exist"), st)

/-- JSON documents, at the value level (what serde_json prints/parses). -/
inductive Json where
  | str : String → Json
  | arr : List Json → Json
  | obj : List (String × Json) → Json

/-- serde field lookup in a JSON object: first binding of the key. -/
def lookupField (key : String) : List (String × Json) → Option Json
  | [] => none
  | (k, v) :: rest => if k == key then some v else lookupField key rest

/-- The derived `Serialize` for `Priority`: a unit enum variant serializes as
its name string. -/
def Priority.encode : Priority → Json
  | Priority.Low => Json.str "Low"
  | Priority.Medium => Json.str "Medium"
  | Priority.High => Json.str "High"

/-- The derived `Deserialize` for `Priority`. -/
def decodePriority : Json → Except String Priority
  | Json.str "Low" => Except.ok Priority.Low
  | Json.str "Medium" => Except.ok Priority.Medium
  | Json.str "High" => Except.ok Priority.High
  | _ => Except.error "unknown variant, expected one of Low, Medium, High"

/-- The derived `Serialize` for `Task`: an object with the four fields in
declaration order; the timestamp serializes as its text. -/
def Task.encode (t : Task) : Json :=
  Json.obj
    [("name", Json.str t.name),
     ("description", Json.str t.description),
     ("priority", t.priority.encode),
     ("add_time", Json.str t.add_time)]

/-- Expect a JSON string (the shape serde requires for a String field and for
the timestamp). -/
def decodeString : Json → Except String String
  | Json.str s => Except.ok s
  | _ => Except.error "invalid type, expected a string"

/-- The derived `Deserialize` for `Task`: look the four fields up by name and
decode each. -/
def decodeTask : Json → Except String Task
  | Json.obj fields => do
      let nameJ ← match lookupField "name" fields with
        | some v => Except.ok v
        | none => Except.error "missing field name"
      let descJ ← match lookupField "description" fields with
        | some v => Except.ok v
        | none => Except.error "missing field description"
      let prioJ ← match lookupField "priority" fields with
        | some v => Except.ok v
        | none => Except.error "missing field priority"
      let timeJ ← match lookupField "add_time" fields with
        | some v => Except.ok v
        | none => Except.error "missing field add_time"
      let name ← decodeString nameJ
      let description ← decodeString descJ
      let priority ← decodePriority prioJ
      let add_time ← decodeString timeJ
      Except.ok { name := name, description := description,
                  priority := priority, add_time := add_time }
  | _ => Except.error "invalid type, expected a map"

/-- `serde_json::to_writer(&file, &self.tasks)`: a `Vec<Task>` serializes as a
JSON array of the elements in order. -/
def encodeTasks (tasks : List Task) : Json :=
  Json.arr (tasks.map Task.encode)

/-- Decode each element of a JSON array in order, failing on the first bad
element. -/
def decodeTaskList : List Json → Except String (List Task)
  | [] => Except.ok []
  | j :: js => do
      let t ← decodeTask j
      let ts ← decodeTaskList js
      Except.ok (t :: ts)

/-- `serde_json::from_reader` at type `Vec<Task>`: the document must be an
array and every element must decode. -/
def decodeTasks : Json → Except String (List Task)
  | Json.arr js => decodeTaskList js
  | _ => Except.error "invalid type, expected a sequence"

/-- The file system: file names to the JSON document stored at that path.
`Path::new(f).exists()` is `(fs f).isSome`. -/
def FS : Type := String → Option Json

/-- `TasksManager::store_to_file` from src/main.rs: if the path does not exist,
create the file and serialize the whole task vector into it; otherwise fail.
In this single-threaded model `File::create` on a fresh path and the encode of
a `Vec<Task>` always succeed, so their error branches collapse away. -/
def TasksManager.store_to_file (st : TasksManager) (fs : FS)
    (filename : String) : Except String String × FS :=
  if (fs filename).isSome then
    (Except.error "File \"{filename}\" already exists", fs)
  else
    (Except.ok "Data stored successfully",
     Function.update fs filename (some (encodeTasks st.tasks)))

/-- `TasksManager::read_from_file` from src/main.rs: if the path exists, open
it and deserialize, assigning `self.tasks` only on success; otherwise fail.
In this single-threaded model `File::open` on an existing path always
succeeds, so its error branch collapses away. -/
def TasksManager.read_from_file (st : TasksManager) (fs : FS)
    (filename : String) : Except String String × TasksManager :=
  match fs filename with
  | some doc =>
      match decodeTasks doc with
      | Except.ok data => (Except.ok "Data read successfully", { tasks := data })
      | Except.error err =>
          (Except.error ("Error reading file " ++ err), st)
  | none =>
      (Except.error "File \"{filename}\" doesn't exist", st)

/-! Helper lemmas about `position` (the model of `Iterator::position`). -/

/-- `position` finds exactly the first index whose element satisfies the
predicate. -/
theorem position_eq_some_iff (p : Task → Bool) (l : List Task) (i : Nat) :
    position p l = some i ↔
      (∃ t, l[i]? = some t ∧ p t = true) ∧
      ∀ j, j < i → ∀ u, l[j]? = some u → p u = false := by
  induction l generalizing i with
  | nil => simp [position]
  | cons t ts ih =>
    by_cases hp : p t
    · simp only [position, hp, if_true]
      constructor
      · intro h
        obtain rfl : (0 : Nat) = i := Option.some.inj h
        refine ⟨⟨t, by simp, hp⟩, ?_⟩
        intro j hj
        exact absurd hj (Nat.not_lt_zero j)
      · rintro ⟨⟨u, hu, hpu⟩, hmin⟩
        cases i with
        | zero => rfl
        | succ n =>
          have h0 := hmin 0 (Nat.succ_pos n) t (by simp)
          rw [hp] at h0
          exact absurd h0 (by simp)
    · have hp' : p t = false := by simpa using hp
      simp only [position, hp', if_false, Bool.false_eq_true]
      cases i with
      | zero =>
        constructor
        · intro h
          rcases Option.map_eq_some'.mp h with ⟨a, _, ha⟩
          omega
        · rintro ⟨⟨u, hu, hpu⟩, hmin⟩
          rw [List.getElem?_cons_zero] at hu
          obtain rfl : t = u := Option.some.inj hu
          rw [hp'] at hpu
          exact absurd hpu (by simp)
      | succ n =>
        have hmap : (position p ts).map (· + 1) = some (n + 1) ↔
            position p ts = some n := by
          cases hpos : position p ts with
          | none => simp
          | some a => simp [Nat.succ_inj']
        rw [hmap, ih n]
        constructor
        · rintro ⟨⟨u, hu, hpu⟩, hmin⟩
          refine ⟨⟨u, by simpa using hu, hpu⟩, ?_⟩
          intro j hj v hv
          cases j with
          | zero =>
            rw [List.getElem?_cons_zero] at hv
            obtain rfl : t = v := Option.some.inj hv
            exact hp'
          | succ m =>
            exact hmin m (by omega) v (by simpa using hv)
        · rintro ⟨⟨u, hu, hpu⟩, hmin⟩
          refine ⟨⟨u, by simpa using hu, hpu⟩, ?_⟩
          intro j hj v hv
          exact hmin (j + 1) (by omega) v (by simpa using hv)

/-- `position` returns `none` exactly when no element satisfies the
predicate. -/
theorem position_eq_none_iff (p : Task → Bool) (l : List Task) :
    position p l = none ↔ ∀ t ∈ l, p t = false := by
  induction l with
  | nil => simp [position]
  | cons t ts ih =>
    by_cases hp : p t
    · simp [position, hp]
    · have hp' : p t = false := by simpa using hp
      simp [position, hp', ih]

/-- A found index is in bounds. -/
theorem position_lt_length {p : Task → Bool} {l : List Task} {i : Nat}
    (h : position p l = some i) : i < l.length := by
  rcases (position_eq_some_iff p l i).mp h with ⟨⟨t, ht, _⟩, _⟩
  exact (List.getElem?_eq_some.mp ht).1

/-! Round-trip of the serde model. -/

/-- Decoding an encoded priority recovers it. -/
theorem decodePriority_encode (p : Priority) :
    decodePriority p.encode = Except.ok p := by
  cases p <;> rfl

/-- Decoding an encoded task recovers it. -/
theorem decodeTask_encode (t : Task) : decodeTask t.encode = Except.ok t := by
  cases t with
  | mk n d p a => cases p <;> rfl

/-- Decoding an encoded task list recovers it. -/
theorem decodeTaskList_encode (l : List Task) :
    decodeTaskList (l.map Task.encode) = Except.ok l := by
  induction l with
  | nil => rfl
  | cons t ts ih =>
    simp only [List.map_cons, decodeTaskList, decodeTask_encode, ih]
    rfl

/-- Decoding an encoded task vector recovers it. -/
theorem decodeTasks_encodeTasks (l : List Task) :
    decodeTasks (encodeTasks l) = Except.ok l := by
  simpa [decodeTasks, encodeTasks] using decodeTaskList_encode l

/-- Folding `add_task` appends the added tasks in order. -/
theorem foldl_add_task (st : TasksManager) (adds : List Task) :
    (adds.foldl TasksManager.add_task st).tasks = st.tasks ++ adds := by
  induction adds generalizing st with
  | nil => simp
  | cons t ts ih => simp [TasksManager.add_task, ih]

/-- A found index of `find_task` is in bounds of the task vector. -/
theorem find_task_lt_length {st : TasksManager} {name : String} {i : Nat}
    (h : st.find_task name = some i) : i < st.tasks.length :=
  position_lt_length (by simpa [TasksManager.find_task] using h)

/-! The claims. -/

/-- C1: `find_task` returns the index of the first task whose `name` field
equals the given string exactly (string equality in the model is
byte-for-byte, hence case-sensitive), and returns `none` when no task
matches; it is a pure function of the collection, so it has no side effect
on it. -/
theorem find_task_first_match (st : TasksManager) (name : String) :
    (∀ i, st.find_task name = some i ↔
      (∃ t, st.tasks[i]? = some t ∧ t.name = name) ∧
      ∀ j, j < i → ∀ u, st.tasks[j]? = some u → u.name ≠ name) ∧
    (st.find_task name = none ↔ ∀ t ∈ st.tasks, t.name ≠ name) := by
  constructor
  · intro i
    simp only [TasksManager.find_task, position_eq_some_iff, beq_iff_eq,
      beq_eq_false_iff_ne]
  · simp only [TasksManager.find_task, position_eq_none_iff,
      beq_eq_false_iff_ne]

/-- C3: `remove_task` on a name found at index `i` (the first match) removes
exactly that element — the result is `eraseIdx i`, one element shorter and a
sublist of the original (so the remaining tasks keep their relative order) —
and reports success; on a missing name it returns the collection unchanged
with a failure message naming the missing task. -/
theorem remove_task_spec (st : TasksManager) (name : String) :
    (∀ i, st.find_task name = some i →
      st.remove_task name =
        (Except.ok ("Task \"" ++ name ++ "\" removed successfully"),
         { tasks := st.tasks.eraseIdx i }) ∧
      (st.remove_task name).2.tasks.length + 1 = st.tasks.length ∧
      (st.remove_task name).2.tasks.Sublist st.tasks) ∧
    (st.find_task name = none →
      st.remove_task name =
        (Except.error ("Task with name \"" ++ name ++ "\" doesn't exist"),
         st)) := by
  constructor
  · intro i h
    have hlt : i < st.tasks.length := find_task_lt_length h
    have heq : st.remove_task name =
        (Except.ok ("Task \"" ++ name ++ "\" removed successfully"),
         { tasks := st.tasks.eraseIdx i }) := by
      simp [TasksManager.remove_task, h]
    refine ⟨heq, ?_, ?_⟩
    · rw [heq]
      have := List.length_eraseIdx_of_lt hlt
      simp only [this]
      omega
    · rw [heq]
      exact List.eraseIdx_sublist st.tasks i
  · intro h
    simp [TasksManager.remove_task, h]

/-- C4: `edit_task` on a name found at index `i` overwrites only the `name`,
`description` and `priority` fields of the task at `i`, keeping its
`add_time` (creation timestamp), its position `i`, the collection length and
every other slot unchanged; on a missing name it returns the collection
unchanged with a failure message. -/
theorem edit_task_spec (st : TasksManager) (name : String) (upd : Task) :
    (∀ i, st.find_task name = some i →
      ∃ old, st.tasks[i]? = some old ∧
        st.edit_task name upd =
          (Except.ok ("Task \"" ++ name ++ "\" updated successfully"),
           { tasks := st.tasks.set i
              { name := upd.name, description := upd.description,
                priority := upd.priority, add_time := old.add_time } }) ∧
        (st.edit_task name upd).2.tasks[i]? =
          some { name := upd.name, description := upd.description,
                 priority := upd.priority, add_time := old.add_time } ∧
        (∀ j, j ≠ i → (st.edit_task name upd).2.tasks[j]? = st.tasks[j]?) ∧
        (st.edit_task name upd).2.tasks.length = st.tasks.length) ∧
    (st.find_task name = none →
      st.edit_task name upd =
        (Except.error ("Task with name \"" ++ name ++ "\" doesn't exist"),
         st)) := by
  constructor
  · intro i h
    have hlt : i < st.tasks.length := find_task_lt_length h
    have hold : st.tasks[i]? = some st.tasks[i] := List.getElem?_eq_getElem hlt
    refine ⟨st.tasks[i], hold, ?_⟩
    have heq : st.edit_task name upd =
        (Except.ok ("Task \"" ++ name ++ "\" updated successfully"),
         { tasks := st.tasks.set i
            { name := upd.name, description := upd.description,
              priority := upd.priority,
              add_time := st.tasks[i].add_time } }) := by
      simp [TasksManager.edit_task, h, hold]
    refine ⟨heq, ?_, ?_, ?_⟩
    · rw [heq]
      simp [List.getElem?_set_self hlt]
    · intro j hj
      rw [heq]
      exact List.getElem?_set_ne (Ne.symm hj)
    · rw [heq]
      simp
  · intro h
    simp [TasksManager.edit_task, h]

/-- C8: `add_task` always succeeds (it is a total function), performs no
uniqueness check, appends the task at the end and grows the collection by
exactly one; consequently building a collection by a sequence of adds yields
the tasks in insertion order, and `print_tasks` prints them in that order. -/
theorem add_task_spec (st : TasksManager) (task : Task) (adds : List Task) :
    st.add_task task = { tasks := st.tasks ++ [task] } ∧
    (st.add_task task).tasks.length = st.tasks.length + 1 ∧
    (adds.foldl TasksManager.add_task TasksManager.new).tasks = adds ∧
    (adds.foldl TasksManager.add_task TasksManager.new).print_tasks =
      adds.map Task.render := by
  have h1 : (adds.foldl TasksManager.add_task TasksManager.new).tasks = adds := by
    simpa [TasksManager.new] using foldl_add_task TasksManager.new adds
  refine ⟨rfl, by simp [TasksManager.add_task], h1, ?_⟩
  simp [TasksManager.print_tasks, h1]

/-- C9: the `Error borrowing task` branch of `edit_task` is unreachable:
whenever `find_task` returns an index, indexing the same vector at it yields
a task, so the result of `edit_task` is always either the success message or
the does-not-exist error — never the borrow error. -/
theorem edit_task_no_borrow_error (st : TasksManager) (name : String)
    (upd : Task) :
    (∀ i, st.find_task name = some i → ∃ t, st.tasks[i]? = some t) ∧
    ((st.edit_task name upd).1 =
        Except.ok ("Task \"" ++ name ++ "\" updated successfully") ∨
     (st.edit_task name upd).1 =
        Except.error ("Task with name \"" ++ name ++ "\" doesn't exist")) := by
  have hfind : ∀ i, st.find_task name = some i → ∃ t, st.tasks[i]? = some t := by
    intro i h
    have hlt : i < st.tasks.length := find_task_lt_length h
    exact ⟨st.tasks[i], List.getElem?_eq_getElem hlt⟩
  refine ⟨hfind, ?_⟩
  cases h : st.find_task name with
  | some i =>
      obtain ⟨t, ht⟩ := hfind i h
      left
      simp [TasksManager.edit_task, h, ht]
  | none =>
      right
      simp [TasksManager.edit_task, h]

/-- C2: saving any task sequence (empty or not) to a fresh path succeeds, and
loading that path back — from any prior in-memory state — yields exactly the
original sequence: same tasks, same field values, same order. -/
theorem save_load_roundtrip (st st2 : TasksManager) (fs : FS)
    (filename : String) (h : fs filename = none) :
    (st.store_to_file fs filename).1 = Except.ok "Data stored successfully" ∧
    st2.read_from_file (st.store_to_file fs filename).2 filename =
      (Except.ok "Data read successfully", { tasks := st.tasks }) := by
  have hnone : (fs filename).isSome = false := by simp [h]
  constructor
  · simp [TasksManager.store_to_file, hnone]
  · simp [TasksManager.store_to_file, hnone, TasksManager.read_from_file,
      Function.update_same, decodeTasks_encodeTasks]

/-- Witness for C2 at a concrete one-task collection and a fresh path. -/
theorem save_load_roundtrip_witness :
    (((fun _ => none) : FS) "todo.json" = none) ∧
    ((TasksManager.mk [Task.mk "Write report" "Q3 summary" Priority.Medium
        "2024-05-01T10:00:00+03:00"]).store_to_file (fun _ => none)
        "todo.json").1 = Except.ok "Data stored successfully" ∧
    TasksManager.new.read_from_file
        ((TasksManager.mk [Task.mk "Write report" "Q3 summary" Priority.Medium
          "2024-05-01T10:00:00+03:00"]).store_to_file (fun _ => none)
          "todo.json").2 "todo.json" =
      (Except.ok "Data read successfully",
       { tasks := [Task.mk "Write report" "Q3 summary" Priority.Medium
          "2024-05-01T10:00:00+03:00"] }) :=
  ⟨rfl, save_load_roundtrip
    (TasksManager.mk [Task.mk "Write report" "Q3 summary" Priority.Medium
      "2024-05-01T10:00:00+03:00"]) TasksManager.new (fun _ => none)
    "todo.json" rfl⟩

/-- C5: load is all-or-nothing — when the document stored at the path fails
to decode, `read_from_file` reports a failure carrying the underlying cause
text and returns the in-memory collection exactly as it was. -/
theorem read_parse_failure_keeps_state (st : TasksManager) (fs : FS)
    (filename : String) (doc : Json) (e : String)
    (h1 : fs filename = some doc) (h2 : decodeTasks doc = Except.error e) :
    st.read_from_file fs filename =
      (Except.error ("Error reading file " ++ e), st) := by
  simp [TasksManager.read_from_file, h1, h2]

/-- Witness for C5 at a malformed document (a JSON object where an array is
required) and a nonempty prior collection. -/
theorem read_parse_failure_keeps_state_witness :
    (((fun _ => some (Json.obj [])) : FS) "todo.json" = some (Json.obj [])) ∧
    decodeTasks (Json.obj []) =
      Except.error "invalid type, expected a sequence" ∧
    (TasksManager.mk [Task.mk "a" "b" Priority.Low "t"]).read_from_file
        (fun _ => some (Json.obj [])) "todo.json" =
      (Except.error ("Error reading file " ++ "invalid type, expected a sequence"),
       TasksManager.mk [Task.mk "a" "b" Priority.Low "t"]) :=
  ⟨rfl, rfl, read_parse_failure_keeps_state
    (TasksManager.mk [Task.mk "a" "b" Priority.Low "t"])
    (fun _ => some (Json.obj [])) "todo.json" (Json.obj [])
    "invalid type, expected a sequence" rfl rfl⟩

/-- C6: `store_to_file` on a path that already exists fails with the
already-exists error and returns the file system unchanged: no write is
performed and the existing file keeps its contents. -/
theorem store_to_existing_file_fails (st : TasksManager) (fs : FS)
    (filename : String) (h : (fs filename).isSome = true) :
    st.store_to_file fs filename =
      (Except.error "File \"{filename}\" already exists", fs) := by
  simp [TasksManager.store_to_file, h]

/-- Witness for C6 at a concrete occupied path. -/
theorem store_to_existing_file_fails_witness :
    ((((fun _ => some (Json.arr [])) : FS) "todo.json").isSome = true) ∧
    TasksManager.new.store_to_file (fun _ => some (Json.arr [])) "todo.json" =
      (Except.error "File \"{filename}\" already exists",
       fun _ => some (Json.arr [])) :=
  ⟨rfl, store_to_existing_file_fails TasksManager.new
    (fun _ => some (Json.arr [])) "todo.json" rfl⟩

/-- C7: `read_from_file` on a path that does not exist fails with the
does-not-exist error and returns the in-memory collection unchanged. -/
theorem read_from_missing_file_fails (st : TasksManager) (fs : FS)
    (filename : String) (h : fs filename = none) :
    st.read_from_file fs filename =
      (Except.error "File \"{filename}\" doesn't exist", st) := by
  simp [TasksManager.read_from_file, h]

/-- Witness for C7 at a concrete missing path and a nonempty collection. -/
theorem read_from_missing_file_fails_witness :
    (((fun _ => none) : FS) "gone.json" = none) ∧
    (TasksManager.mk [Task.mk "a" "b" Priority.High "t"]).read_from_file
        (fun _ => none) "gone.json" =
      (Except.error "File \"{filename}\" doesn't exist",
       TasksManager.mk [Task.mk "a" "b" Priority.High "t"]) :=
  ⟨rfl, read_from_missing_file_fails
    (TasksManager.mk [Task.mk "a" "b" Priority.High "t"]) (fun _ => none)
    "gone.json" rfl⟩

/-- C10: the failure messages for saving to an existing path and for loading
from a missing path are fixed strings, independent of the given filename,
that contain the literal characters `{filename}` (the Rust source uses a
plain string literal, not a `format!` interpolation), unlike the remove and
edit failure messages which do include the given task name. -/
theorem file_error_messages_fixed (st st2 : TasksManager) (fs fs2 : FS)
    (f1 f2 : String) (h1 : (fs f1).isSome = true) (h2 : fs2 f2 = none) :
    (st.store_to_file fs f1).1 =
      Except.error "File \"{filename}\" already exists" ∧
    (st2.read_from_file fs2 f2).1 =
      Except.error "File \"{filename}\" doesn't exist" ∧
    "File \"{filename}\" already exists" =
      "File \"" ++ "{filename}" ++ "\" already exists" ∧
    "File \"{filename}\" doesn't exist" =
      "File \"" ++ "{filename}" ++ "\" doesn't exist" := by
  refine ⟨?_, ?_, rfl, rfl⟩
  · simp [TasksManager.store_to_file, h1]
  · simp [TasksManager.read_from_file, h2]

/-- Witness for C10 at two concrete filenames, neither of which appears in
the reported messages. -/
theorem file_error_messages_fixed_witness :
    ((((fun _ => some (Json.arr [])) : FS) "mine.json").isSome = true) ∧
    (((fun _ => none) : FS) "yours.json" = none) ∧
    (TasksManager.new.store_to_file (fun _ => some (Json.arr []))
        "mine.json").1 =
      Except.error "File \"{filename}\" already exists" ∧
    (TasksManager.new.read_from_file (fun _ => none) "yours.json").1 =
      Except.error "File \"{filename}\" doesn't exist" ∧
    "File \"{filename}\" already exists" =
      "File \"" ++ "{filename}" ++ "\" already exists" ∧
    "File \"{filename}\" doesn't exist" =
      "File \"" ++ "{filename}" ++ "\" doesn't exist" := by
  have h := file_error_messages_fixed TasksManager.new TasksManager.new
    (fun _ => some (Json.arr [])) (fun _ => none) "mine.json" "yours.json"
    rfl rfl
  exact ⟨rfl, rfl, h.1, h.2.1, h.2.2.1, h.2.2.2⟩

end TodoCli
